import Mathlib

/-!
Verification of the pagination core of the cursor-pagination tutorial.

The repository exposes two GraphQL resolvers over a Prisma `Post` table:

* `offsetPagination`, which forwards `skip` and `take` to the storage
  engine with a falsy `|| undefined` fallback on each argument;
* `cursorPagination`, which additionally forwards `cursor` (again through
  the `|| undefined` fallback) as the anchor `{ id: cursor }`.

The storage engine itself (Prisma Client's `findMany`) is an external
collaborator; it is embedded here from the specification's description of
the ordered-scan primitive it provides.  Records are `Post` rows; the seed
data of `prisma/seed.ts` is reproduced as `seededPosts`.
-/

namespace CursorPagination

/-- A `Post` record, mirroring the Prisma model of the tutorial's schema:
an integer id, a title, optional content, a published flag defaulting to
false, and an optional author id. -/
structure Post where
  id : Nat
  title : String
  content : Option String
  published : Bool
  authorId : Option Nat
deriving DecidableEq, Repr

/-- Modelled from the spec: the storage engine's ordered-scan primitive
(Prisma Client's `findMany`, an external collaborator not part of the
repository's sources).  Per §6 of the spec it accepts an optional anchor
identifier, a skip count and a maximum count over a record set held in
ascending-id order: with an anchor it locates the record whose id equals
the anchor and treats it as position 0 (yielding nothing when no record
carries that id), it then bypasses `skip` records from that position and
returns at most `take` records, a missing `take` meaning no limit.
`anchorScan` is the anchoring step: without an anchor the scan covers the
whole set; with an anchor it starts at the record whose id equals the
anchor, or is empty when no record carries that id. -/
def anchorScan (posts : List Post) (cursor : Option Nat) : List Post :=
  match cursor with
  | none => posts
  | some c => posts.dropWhile (fun p => p.id ≠ c)

/-- The full ordered-scan primitive: anchor (if given), then bypass the
skip count, then cut to at most the maximum count (if given). -/
def findMany (posts : List Post) (skip : Option Nat) (take : Option Nat)
    (cursor : Option Nat) : List Post :=
  match take with
  | none => (anchorScan posts cursor).drop (skip.getD 0)
  | some t => ((anchorScan posts cursor).drop (skip.getD 0)).take t

/-- The source's `args.x || undefined` falsy fallback on an optional
integer argument: an absent (`null`/`undefined`) value and the falsy value
`0` both coalesce to `undefined`. -/
def orUndefined (x : Option Nat) : Option Nat :=
  match x with
  | some (n + 1) => some (n + 1)
  | _ => none

/-- The `offsetPagination` resolver: forwards `skip` and `take` to the
engine through the falsy fallback, passing no cursor. -/
def offsetPagination (skip take : Option Nat) (posts : List Post) : List Post :=
  findMany posts (orUndefined skip) (orUndefined take) none

/-- The `cursorPagination` resolver: forwards `skip`, `take` and the
anchor `cursor` to the engine, each through the falsy fallback. -/
def cursorPagination (skip take cursor : Option Nat) (posts : List Post) :
    List Post :=
  findMany posts (orUndefined skip) (orUndefined take) (orUndefined cursor)

/-- A record set is in ascending order when ids strictly increase along
the list. -/
abbrev SortedById (posts : List Post) : Prop :=
  posts.Pairwise (fun a b => a.id < b.id)

/-- The record set created by `prisma/seed.ts`: posts with ids
2, 5 and 6 by Alice (user 1), 9 and 14 by Bob (user 2), 16 and 17 by
Charlie (user 3). -/
def seededPosts : List Post :=
  [ ⟨2, "First post by Alice", some "Hello world!", false, some 1⟩,
    ⟨5, "Update from Alice", some "Some recent news", false, some 1⟩,
    ⟨6, "Another post by Alice", some "Another update", false, some 1⟩,
    ⟨9, "First post by Bob", some "This is my first post!", false, some 2⟩,
    ⟨14, "Update from Bob", some "What I've been working on", false, some 2⟩,
    ⟨16, "First post by Charlie", some "Hi everyone!", false, some 3⟩,
    ⟨17, "Update from Charlie", some "Lots of news", false, some 3⟩ ]

/-- A record inserted after the seeding, with an id larger than every
seeded id. -/
def post20 : Post :=
  ⟨20, "Third post by Charlie", some "Even more news", false, some 3⟩

/-- The seeded record set after inserting `post20`. -/
def mutatedPosts : List Post := seededPosts ++ [post20]

/-- The falsy fallback keeps every positive value. -/
theorem orUndefined_pos {n : Nat} (h : 1 ≤ n) :
    orUndefined (some n) = some n := by
  cases n with
  | zero => exact absurd h (by decide)
  | succ m => rfl

/-- Read back through the falsy fallback with default 0, the skip count is
unchanged: an absent skip and a zero skip both mean skipping nothing. -/
theorem orUndefined_getD (x : Option Nat) :
    (orUndefined x).getD 0 = x.getD 0 := by
  match x with
  | none => rfl
  | some 0 => rfl
  | some (n + 1) => rfl

/-- Anchoring returns a sublist (in fact a suffix) of the record set. -/
theorem anchorScan_sublist (posts : List Post) (c : Option Nat) :
    List.Sublist (anchorScan posts c) posts := by
  cases c with
  | none => exact List.Sublist.refl _
  | some cc => exact List.dropWhile_sublist _

/-- Whatever the arguments, the engine's scan returns a sublist of the
record set. -/
theorem findMany_sublist (posts : List Post) (s t c : Option Nat) :
    List.Sublist (findMany posts s t c) posts := by
  have hskip := (List.drop_sublist (s.getD 0) _).trans (anchorScan_sublist posts c)
  cases t with
  | none => exact hskip
  | some tt => exact (List.take_sublist _ _).trans hskip

/-- On a sorted record set, dropping records until the one at index `k`
whose id is `c` is the same as dropping the first `k` records. -/
theorem dropWhile_ne_eq_drop {c : Nat} :
    ∀ (posts : List Post) (k : Nat) (p : Post), SortedById posts →
      posts[k]? = some p → p.id = c →
      posts.dropWhile (fun q => q.id ≠ c) = posts.drop k := by
  intro posts
  induction posts with
  | nil => intro k p _ hget _; simp at hget
  | cons q rest ih =>
    intro k p hsort hget hid
    obtain ⟨hhead, htail⟩ := List.pairwise_cons.mp hsort
    cases k with
    | zero =>
      have hq : q = p := by simpa using hget
      subst hq
      simp [List.dropWhile_cons, hid]
    | succ k =>
      have hget' : rest[k]? = some p := by simpa using hget
      have hmem : p ∈ rest := List.getElem?_mem hget'
      have hqlt : q.id < c := hid ▸ hhead p hmem
      have hqne : q.id ≠ c := Nat.ne_of_lt hqlt
      simpa [List.dropWhile_cons, hqne] using ih k p htail hget' hid

/-- On a sorted record set, the suffix starting at the record whose id is
`c` only depends on the records whose ids are at least `c`. -/
theorem dropWhile_ne_eq_dropWhile_filter {c : Nat} :
    ∀ posts : List Post, SortedById posts →
      posts.dropWhile (fun p => p.id ≠ c) =
        (posts.filter (fun p => c ≤ p.id)).dropWhile (fun p => p.id ≠ c) := by
  intro posts
  induction posts with
  | nil => intro _; rfl
  | cons q rest ih =>
    intro hsort
    obtain ⟨hhead, htail⟩ := List.pairwise_cons.mp hsort
    by_cases hq : q.id = c
    · have hkeep : c ≤ q.id := Nat.le_of_eq hq.symm
      have hrest : rest.filter (fun p => c ≤ p.id) = rest :=
        List.filter_eq_self.mpr fun x hx => by
          simpa using Nat.le_of_lt (hq ▸ hhead x hx)
      simp [List.filter_cons, List.dropWhile_cons, hkeep, hq, hrest]
    · by_cases hle : c ≤ q.id
      · have hlt : c < q.id := Nat.lt_of_le_of_ne hle fun h => hq h.symm
        have hall : ∀ x ∈ q :: rest, x.id ≠ c := by
          intro x hx
          rcases List.mem_cons.mp hx with h | h
          · exact h ▸ hq
          · exact Nat.ne_of_gt (Nat.lt_trans hlt (hhead x h))
        have hallf : ∀ x ∈ (q :: rest).filter (fun p => c ≤ p.id), x.id ≠ c :=
          fun x hx => hall x (List.mem_of_mem_filter hx)
        rw [List.dropWhile_eq_nil_iff.mpr fun x hx => by simpa using hall x hx,
          List.dropWhile_eq_nil_iff.mpr fun x hx => by simpa using hallf x hx]
      · simp only [List.filter_cons, List.dropWhile_cons]
        have hle' : decide (c ≤ q.id) = false := by simpa using hle
        have hq' : (decide (q.id ≠ c)) = true := by simpa using hq
        rw [hle', hq']
        simpa using ih htail

/-- On a sorted record set containing a record with id `m`, every record
whose id exceeds `m` survives anchoring at `m` and skipping one record. -/
theorem mem_drop_one_dropWhile {m : Nat} :
    ∀ (posts : List Post) (q r : Post), SortedById posts → q ∈ posts →
      q.id = m → r ∈ posts → m < r.id →
      r ∈ (posts.dropWhile (fun p => p.id ≠ m)).drop 1 := by
  intro posts
  induction posts with
  | nil => intro q r _ hq _ _ _; simp at hq
  | cons a rest ih =>
    intro q r hsort hq hqid hr hm
    obtain ⟨hhead, htail⟩ := List.pairwise_cons.mp hsort
    by_cases ha : a.id = m
    · have hra : r ≠ a := fun h => by
        rw [h, ha] at hm; exact Nat.lt_irrefl m hm
      have hr' : r ∈ rest := (List.mem_cons.mp hr).resolve_left hra
      simpa [List.dropWhile_cons, ha] using hr'
    · have hq' : q ∈ rest := (List.mem_cons.mp hq).resolve_left
        fun h => ha (h ▸ hqid)
      have halt : a.id < m := hqid ▸ hhead q hq'
      have hr' : r ∈ rest := (List.mem_cons.mp hr).resolve_left
        fun h => Nat.lt_irrefl m (Nat.lt_trans hm (h ▸ halt))
      simpa [List.dropWhile_cons, ha] using ih q r htail hq' hqid hr' hm

/-- Membership is preserved by a take of at least the list's length. -/
theorem mem_take_of_length_le {r : Post} {l : List Post} {n : Nat}
    (hr : r ∈ l) (h : l.length ≤ n) : r ∈ l.take n := by
  rwa [List.take_of_length_le h]

/-- On a sorted record set, a record with id 0 can only sit at index 0. -/
theorem index_zero_of_id_zero {posts : List Post} {k : Nat} {p : Post}
    (hsort : SortedById posts) (hget : posts[k]? = some p)
    (hid : p.id = 0) : k = 0 := by
  cases posts with
  | nil => simp at hget
  | cons a rest =>
    cases k with
    | zero => rfl
    | succ k =>
      obtain ⟨hhead, _⟩ := List.pairwise_cons.mp hsort
      have hget' : rest[k]? = some p := by simpa using hget
      have := hhead p (List.getElem?_mem hget')
      omega

/-- With positive skip and take and a positive cursor, the two resolvers
compute the evident slices of the (anchored) record set. -/
theorem offsetPagination_eq (posts : List Post) (skip t : Nat)
    (ht : 1 ≤ t) :
    offsetPagination (some skip) (some t) posts =
      (posts.drop skip).take t := by
  unfold offsetPagination
  rw [orUndefined_pos ht]
  unfold findMany
  rw [orUndefined_getD]
  rfl

/-- Cursor-mode analogue of `offsetPagination_eq` for a positive cursor. -/
theorem cursorPagination_eq (posts : List Post) (skip t c : Nat)
    (ht : 1 ≤ t) (hc : 1 ≤ c) :
    cursorPagination (some skip) (some t) (some c) posts =
      ((posts.dropWhile (fun p => p.id ≠ c)).drop skip).take t := by
  unfold cursorPagination
  rw [orUndefined_pos ht, orUndefined_pos hc]
  unfold findMany
  rw [orUndefined_getD]
  rfl

/-- A zero cursor is falsy, so cursor mode degrades to offset mode. -/
theorem cursorPagination_zero (s t : Option Nat) (posts : List Post) :
    cursorPagination s t (some 0) posts = offsetPagination s t posts := rfl


/-- Scans over two record sets with the same anchored suffix agree. -/
theorem findMany_anchor_congr {A B : List Post} (s t c : Option Nat)
    (h : anchorScan A c = anchorScan B c) :
    findMany A s t c = findMany B s t c := by
  unfold findMany
  cases t with
  | none => rw [h]
  | some tt => rw [h]

/-- A scan over an empty anchored suffix is empty. -/
theorem findMany_of_anchor_nil {posts : List Post} (s t c : Option Nat)
    (h : anchorScan posts c = []) : findMany posts s t c = [] := by
  unfold findMany
  cases t with
  | none => rw [h]; exact List.drop_nil
  | some tt => rw [h]; simp

/-- An unanchored scan that skips the whole record set is empty. -/
theorem findMany_none_of_length_le (posts : List Post) (s t : Option Nat)
    (h : posts.length ≤ s.getD 0) : findMany posts s t none = [] := by
  have hd : posts.drop (s.getD 0) = [] := List.drop_eq_nil_of_le h
  unfold findMany anchorScan
  cases t with
  | none => exact hd
  | some tt => rw [hd]; simp

/-- Claim C2 (amended: for `take ≥ 1`; `take = 0` is falsy-coalesced to
the engine's no-limit default and returns every remaining record, see the
counterexample): on a record set in ascending id order, `offsetPagination`
returns the records obtained by skipping the first `skip` records and
taking the next `take`; in particular on the seeded set, skip 0 and take 3
yield ids [2, 5, 6] and skip 3 and take 3 yield ids [9, 14, 16]. -/
theorem C2_offset_slice (posts : List Post) (skip take : Nat)
    (_hsort : SortedById posts) (htake : 1 ≤ take) :
    offsetPagination (some skip) (some take) posts =
      (posts.drop skip).take take ∧
    (offsetPagination (some 0) (some 3) seededPosts).map (fun p => p.id) =
      [2, 5, 6] ∧
    (offsetPagination (some 3) (some 3) seededPosts).map (fun p => p.id) =
      [9, 14, 16] :=
  ⟨offsetPagination_eq posts skip take htake, by decide, by decide⟩

/-- Claim C2 witness at the seeded set with skip 3, take 3. -/
theorem C2_offset_slice_witness :
    offsetPagination (some 3) (some 3) seededPosts =
      (seededPosts.drop 3).take 3 ∧
    (offsetPagination (some 0) (some 3) seededPosts).map (fun p => p.id) =
      [2, 5, 6] ∧
    (offsetPagination (some 3) (some 3) seededPosts).map (fun p => p.id) =
      [9, 14, 16] :=
  C2_offset_slice seededPosts 3 3 (by decide) (by decide)

/-- Claim C2 counterexample: at `take = 0` the claim demands zero records,
but the resolver returns all four remaining records of the seeded set. -/
theorem C2_cex_take_zero :
    (offsetPagination (some 3) (some 0) seededPosts).map (fun p => p.id) =
      [9, 14, 16, 17] ∧
    offsetPagination (some 3) (some 0) seededPosts ≠
      (seededPosts.drop 3).take 0 :=
  ⟨by decide, by decide⟩

/-- Claim C5 (amended: for `take ≥ 1`; at `take = 0` the falsy fallback
turns the bound off entirely, see the counterexample): both resolvers
return at most `take` records. -/
theorem C5_page_length_bound (posts : List Post) (s c : Option Nat)
    (t : Nat) (ht : 1 ≤ t) :
    (offsetPagination s (some t) posts).length ≤ t ∧
    (cursorPagination s (some t) c posts).length ≤ t := by
  constructor
  · unfold offsetPagination
    rw [orUndefined_pos ht]
    unfold findMany
    exact List.length_take_le _ _
  · unfold cursorPagination
    rw [orUndefined_pos ht]
    unfold findMany
    exact List.length_take_le _ _

/-- Claim C5 witness at the seeded set with take 3. -/
theorem C5_page_length_bound_witness :
    (offsetPagination (some 1) (some 3) seededPosts).length ≤ 3 ∧
    (cursorPagination (some 1) (some 3) (some 6) seededPosts).length ≤ 3 :=
  C5_page_length_bound seededPosts (some 1) (some 6) 3 (by decide)

/-- Claim C5 counterexample: with `take = 0` the page holds all seven
seeded records, so its length is not bounded by `take`. -/
theorem C5_cex_take_zero :
    (offsetPagination none (some 0) seededPosts).length = 7 ∧
    ¬ (offsetPagination none (some 0) seededPosts).length ≤ 0 := by
  exact ⟨by decide, by decide⟩

/-- Claim C6: both resolvers are pure functions of the record set and the
descriptor, so two invocations with the same descriptor over the same
unmodified record set return identical sequences. -/
theorem C6_deterministic (s t c : Option Nat) (posts : List Post) :
    offsetPagination s t posts = offsetPagination s t posts ∧
    cursorPagination s t c posts = cursorPagination s t c posts :=
  ⟨rfl, rfl⟩

/-- Claim C9: `skip = 0` and an absent `skip` are conflated by the falsy
fallback and both mean starting at the beginning of the set, so
`offsetPagination` returns the same sequence either way. -/
theorem C9_skip_zero_equiv (t : Option Nat) (posts : List Post) :
    offsetPagination (some 0) t posts = offsetPagination none t posts := rfl

/-- Claim C10: the falsy fallback on `cursor` erases a zero anchor, so
`cursorPagination` with `cursor = 0`, like with `cursor` absent, returns
exactly the offset-mode page for the same skip and take. -/
theorem C10_cursor_zero_offset_equiv (s t : Option Nat)
    (posts : List Post) :
    cursorPagination s t (some 0) posts = offsetPagination s t posts ∧
    cursorPagination s t none posts = offsetPagination s t posts :=
  ⟨rfl, rfl⟩

/-- Claim C1 (amended: for `take ≥ 1`; `take = 0` is falsy-coalesced to
the engine's no-limit default and returns every record from the computed
position on, see the counterexample): on a record set in ascending id
order holding the cursor record `p` (with id `c`) at position `k`,
`cursorPagination` treats that record as position 0, skips `skip` records
from there with the cursor record itself counted, and returns the next
`take` records of the set; in particular on the seeded set, skip 1, take 3
and cursor 6 yield ids [9, 14, 16]. -/
theorem C1_cursor_anchored_slice (posts : List Post) (k skip take c : Nat)
    (p : Post) (hsort : SortedById posts) (hget : posts[k]? = some p)
    (hid : p.id = c) (htake : 1 ≤ take) :
    cursorPagination (some skip) (some take) (some c) posts =
      (posts.drop (k + skip)).take take ∧
    (cursorPagination (some 1) (some 3) (some 6) seededPosts).map
      (fun q => q.id) = [9, 14, 16] := by
  refine ⟨?_, by decide⟩
  cases c with
  | zero =>
    have hk : k = 0 := index_zero_of_id_zero hsort hget hid
    subst hk
    rw [cursorPagination_zero, offsetPagination_eq posts skip take htake,
      Nat.zero_add]
  | succ n =>
    rw [cursorPagination_eq posts skip take (n + 1) htake
        (Nat.succ_le_succ (Nat.zero_le n)),
      dropWhile_ne_eq_drop posts k p hsort hget hid, List.drop_drop]

/-- Claim C1 witness: the seeded set holds the cursor record of id 6 at
position 2, and skip 1, take 3 yield ids [9, 14, 16]. -/
theorem C1_cursor_anchored_slice_witness :
    cursorPagination (some 1) (some 3) (some 6) seededPosts =
      (seededPosts.drop (2 + 1)).take 3 ∧
    (cursorPagination (some 1) (some 3) (some 6) seededPosts).map
      (fun q => q.id) = [9, 14, 16] :=
  C1_cursor_anchored_slice seededPosts 2 1 3 6
    ⟨6, "Another post by Alice", some "Another update", false, some 1⟩
    (by decide) (by decide) (by decide) (by decide)

/-- Claim C1 counterexample: at `take = 0` the claim demands zero records,
but the resolver returns all four records after the skipped cursor
record. -/
theorem C1_cex_take_zero :
    (cursorPagination (some 1) (some 0) (some 6) seededPosts).map
      (fun q => q.id) = [9, 14, 16, 17] ∧
    cursorPagination (some 1) (some 0) (some 6) seededPosts ≠
      (seededPosts.drop (2 + 1)).take 0 :=
  ⟨by decide, by decide⟩

/-- Claim C3: the cursor-mode page for anchor `c` only depends on the
records whose ids are at least `c`, so two sorted record sets agreeing on
those records yield the same page for any skip and take; mutations below
the anchor never change the page. -/
theorem C3_cursor_prefix_independence (A B : List Post) (s t : Option Nat)
    (c : Nat) (hA : SortedById A) (hB : SortedById B)
    (hagree : A.filter (fun p => c ≤ p.id) = B.filter (fun p => c ≤ p.id)) :
    cursorPagination s t (some c) A = cursorPagination s t (some c) B := by
  cases c with
  | zero =>
    have hAeq : A.filter (fun p => (0 : Nat) ≤ p.id) = A :=
      List.filter_eq_self.mpr fun x _ => by simp
    have hBeq : B.filter (fun p => (0 : Nat) ≤ p.id) = B :=
      List.filter_eq_self.mpr fun x _ => by simp
    have hAB : A = B := by rw [← hAeq, ← hBeq]; exact hagree
    rw [hAB]
  | succ n =>
    have key : A.dropWhile (fun p => p.id ≠ (n + 1)) =
        B.dropWhile (fun p => p.id ≠ (n + 1)) := by
      rw [dropWhile_ne_eq_dropWhile_filter A hA,
        dropWhile_ne_eq_dropWhile_filter B hB, hagree]
    unfold cursorPagination
    rw [orUndefined_pos (Nat.succ_le_succ (Nat.zero_le n))]
    exact findMany_anchor_congr _ _ _ (by simpa only [anchorScan] using key)

/-- Claim C3 witness: deleting the record of id 2 (below the anchor 6)
from the seeded set leaves the cursor page unchanged. -/
theorem C3_cursor_prefix_independence_witness :
    cursorPagination (some 1) (some 3) (some 6) seededPosts =
      cursorPagination (some 1) (some 3) (some 6) (seededPosts.drop 1) :=
  C3_cursor_prefix_independence seededPosts (seededPosts.drop 1)
    (some 1) (some 3) 6 (by decide) (by decide) (by decide)

/-- Claim C4 (amended: for a nonzero cursor; `cursor = 0` is falsy-coalesced
away and degrades to offset mode, see the counterexample): a cursor id
carried by no record yields the empty page rather than an error, and
offset mode whose skip reaches past the end of the set also yields the
empty page; in particular cursor 999 on the seeded set yields the empty
page. -/
theorem C4_missing_anchor_empty (posts : List Post) (s t : Option Nat)
    (c skip : Nat) (hc : c ≠ 0) (habsent : ∀ p ∈ posts, p.id ≠ c)
    (hskip : posts.length ≤ skip) :
    cursorPagination s t (some c) posts = [] ∧
    offsetPagination (some skip) t posts = [] ∧
    cursorPagination (some 0) (some 3) (some 999) seededPosts = [] := by
  refine ⟨?_, ?_, by decide⟩
  · have hpos : 1 ≤ c := Nat.one_le_iff_ne_zero.mpr hc
    have hnil : anchorScan posts (some c) = [] := by
      simp only [anchorScan]
      exact List.dropWhile_eq_nil_iff.mpr fun x hx => by
        simpa using habsent x hx
    unfold cursorPagination
    rw [orUndefined_pos hpos]
    exact findMany_of_anchor_nil _ _ _ hnil
  · unfold offsetPagination
    refine findMany_none_of_length_le posts _ _ ?_
    rw [orUndefined_getD]
    exact hskip

/-- Claim C4 witness: cursor 999 and a skip of the full length 7 on the
seeded set. -/
theorem C4_missing_anchor_empty_witness :
    cursorPagination (some 0) (some 3) (some 999) seededPosts = [] ∧
    offsetPagination (some 7) (some 3) seededPosts = [] ∧
    cursorPagination (some 0) (some 3) (some 999) seededPosts = [] :=
  C4_missing_anchor_empty seededPosts (some 0) (some 3) 999 7
    (by decide) (by decide) (by decide)

/-- Claim C4 counterexample: 0 is the id of no seeded record, yet cursor 0
returns the first three records (offset-mode fallback) instead of the
empty page. -/
theorem C4_cex_cursor_zero :
    (cursorPagination none (some 3) (some 0) seededPosts).map
      (fun p => p.id) = [2, 5, 6] ∧
    cursorPagination none (some 3) (some 0) seededPosts ≠ [] :=
  ⟨by decide, by decide⟩

/-- Claim C7: after inserting a record `r` whose id exceeds the id `m` of
a record of the (sorted) set, the cursor-mode next page anchored at `m`
with skip 1 and a take reaching the end of the set includes `r`; offset
mode with the fixed next-page skip carries no such guarantee: on the
seeded set the page after offset page [2, 5, 6] uses skip 3, and once
`post20` (id 20 > 6) is inserted, that offset page misses it while the
cursor page anchored at 6 includes it. -/
theorem C7_mutation_consistency (posts : List Post) (q r : Post) (m : Nat)
    (hsort : SortedById posts) (hq : q ∈ posts) (hqid : q.id = m)
    (hr : r ∈ posts) (hm : m < r.id) :
    r ∈ cursorPagination (some 1) (some posts.length) (some m) posts ∧
    post20 ∈ cursorPagination (some 1) (some mutatedPosts.length) (some 6)
      mutatedPosts ∧
    post20 ∉ offsetPagination (some 3) (some 3) mutatedPosts := by
  refine ⟨?_, by decide, by decide⟩
  have hlen : 1 ≤ posts.length :=
    List.length_pos.mpr (List.ne_nil_of_mem hq)
  cases m with
  | zero =>
    rw [cursorPagination_zero, offsetPagination_eq posts 1 posts.length hlen]
    cases posts with
    | nil => simp at hq
    | cons a rest =>
      obtain ⟨hhead, _⟩ := List.pairwise_cons.mp hsort
      have hqa : q = a := by
        rcases List.mem_cons.mp hq with h | h
        · exact h
        · have := hhead q h
          omega
      have hra : r ≠ a := fun h => by
        rw [← hqa] at h
        rw [h] at hm
        omega
      have hr' : r ∈ rest := (List.mem_cons.mp hr).resolve_left hra
      apply mem_take_of_length_le
      · simpa using hr'
      · simp
  | succ n =>
    rw [cursorPagination_eq posts 1 posts.length (n + 1) hlen
      (Nat.succ_le_succ (Nat.zero_le n))]
    apply mem_take_of_length_le
    · exact mem_drop_one_dropWhile posts q r hsort hq hqid hr hm
    · have h1 : (posts.dropWhile (fun p => p.id ≠ (n + 1))).length ≤
          posts.length := (List.dropWhile_sublist _).length_le
      have h2 := List.length_drop 1 (posts.dropWhile (fun p => p.id ≠ (n + 1)))
      omega

/-- Claim C7 witness at the mutated seeded set: anchor 6, insert `post20`
of id 20. -/
theorem C7_mutation_consistency_witness :
    post20 ∈ cursorPagination (some 1) (some mutatedPosts.length) (some 6)
      mutatedPosts ∧
    post20 ∈ cursorPagination (some 1) (some mutatedPosts.length) (some 6)
      mutatedPosts ∧
    post20 ∉ offsetPagination (some 3) (some 3) mutatedPosts :=
  C7_mutation_consistency mutatedPosts
    ⟨6, "Another post by Alice", some "Another update", false, some 1⟩
    post20 6 (by decide) (by decide) (by decide) (by decide) (by decide)

/-- Claim C8: over a record set in ascending id order, every page of
either resolver is itself in strictly ascending id order and repeats no
id, since the engine's scan (modelled from the spec as order-preserving)
returns a sublist of the set. -/
theorem C8_page_ascending_nodup (posts : List Post) (s t c : Option Nat)
    (hsort : SortedById posts) :
    SortedById (offsetPagination s t posts) ∧
    ((offsetPagination s t posts).map (fun p => p.id)).Nodup ∧
    SortedById (cursorPagination s t c posts) ∧
    ((cursorPagination s t c posts).map (fun p => p.id)).Nodup := by
  have ho : SortedById (offsetPagination s t posts) := by
    unfold offsetPagination
    exact hsort.sublist (findMany_sublist posts _ _ _)
  have hcu : SortedById (cursorPagination s t c posts) := by
    unfold cursorPagination
    exact hsort.sublist (findMany_sublist posts _ _ _)
  refine ⟨ho, ?_, hcu, ?_⟩
  · exact List.pairwise_map.mpr (ho.imp fun h => Nat.ne_of_lt h)
  · exact List.pairwise_map.mpr (hcu.imp fun h => Nat.ne_of_lt h)

/-- Claim C8 witness at the seeded set with skip 1, take 3, cursor 6. -/
theorem C8_page_ascending_nodup_witness :
    SortedById (offsetPagination (some 1) (some 3) seededPosts) ∧
    ((offsetPagination (some 1) (some 3) seededPosts).map
      (fun p => p.id)).Nodup ∧
    SortedById (cursorPagination (some 1) (some 3) (some 6) seededPosts) ∧
    ((cursorPagination (some 1) (some 3) (some 6) seededPosts).map
      (fun p => p.id)).Nodup :=
  C8_page_ascending_nodup seededPosts (some 1) (some 3) (some 6) (by decide)


end CursorPagination
